import Mathlib

/-!
Verification of the DayLog (Work_Log) activity pipeline.

Shallow embedding of the Python sources:
  src/processors/aggregator.py  (DataAggregator)
  src/collectors/git.py         (GitCollector)
  src/collectors/browser.py     (BrowserCollector timestamp arithmetic)
  src/config/settings.py        (only the categorization keyword lists reach the core)

Conventions used throughout:
  * `datetime` values are modelled as integer microseconds since a fixed
    local epoch that falls on a midnight.  With that convention
    `timestamp.replace(second=0, microsecond=0)` is flooring to the minute
    and `.hour` is `t / (3600 * 10^6) % 24`; both agree with the calendar
    field operations of the source for every epoch anchored at a midnight.
  * Python string primitives (`in`, `strip`, `lower`, slicing, `split`)
    are modelled over the code-point list of the string, matching Python's
    code-point semantics.
  * External effects (subprocess calls, `datetime.now()`, the settings
    store) become explicit parameters of the embedded functions.
-/

namespace WorkLog

/-! ## Python string primitives -/

/-- Whether the first list is a prefix of the second. -/
def charsPrefix : List Char → List Char → Bool
  | [], _ => true
  | _ :: _, [] => false
  | a :: as, b :: bs => a = b && charsPrefix as bs

/-- Whether the first list occurs as a contiguous sublist of the second. -/
def charsInfix (needle : List Char) : List Char → Bool
  | [] => charsPrefix needle []
  | b :: bs => charsPrefix needle (b :: bs) || charsInfix needle bs

/-- Python `needle in haystack` (substring containment). -/
def pyIn (needle haystack : String) : Bool :=
  charsInfix needle.toList haystack.toList

/-- Python `str.lower()` (code-point wise, as used on the ASCII data here). -/
def pyLower (s : String) : String :=
  String.mk (s.toList.map Char.toLower)

/-- Python `str.strip()` with no argument: remove leading and trailing whitespace. -/
def pyStrip (s : String) : String :=
  String.mk (((s.toList.dropWhile Char.isWhitespace).reverse.dropWhile Char.isWhitespace).reverse)

/-- Python `s[:n]` for strings (first `n` code points). -/
def pyTake (n : Nat) (s : String) : String :=
  String.mk (s.toList.take n)

/-- Python `c in s` for a single character. -/
def pyHasChar (c : Char) (s : String) : Bool :=
  s.toList.contains c

/-- Python `s.startswith(p)`. -/
def pyStartsWith (p s : String) : Bool :=
  charsPrefix p.toList s.toList

/-- Python `str.title()` on the ASCII service names handled here:
the first letter of each alphabetic run is uppercased, the rest lowercased. -/
def pyTitleCaseAux : Bool → List Char → List Char
  | _, [] => []
  | prevAlpha, c :: cs =>
    (if c.isAlpha then (if prevAlpha then c.toLower else c.toUpper) else c)
      :: pyTitleCaseAux c.isAlpha cs

/-- Python `str.title()`. -/
def pyTitleCase (s : String) : String :=
  String.mk (pyTitleCaseAux false s.toList)

/-! ## Timestamps (aggregator view) -/

/-- A `datetime`, as integer microseconds since a midnight-anchored local epoch. -/
abbrev Timestamp := Nat

def usPerMinute : Nat := 60000000

def usPerHour : Nat := 3600000000

/-- `timestamp.replace(second=0, microsecond=0)`: floor to the minute. -/
def truncToMinute (t : Timestamp) : Timestamp :=
  t / usPerMinute * usPerMinute

/-- `timestamp.hour`. -/
def hourOfDay (t : Timestamp) : Nat :=
  t / usPerHour % 24

/-! ## Source record types (collectors/browser.py, collectors/ai_chats.py, collectors/git.py) -/

/-- `BrowserActivity` dataclass (src/collectors/browser.py). -/
structure BrowserActivity where
  timestamp : Timestamp
  url : String
  title : String
  visitCount : Nat
  browser : String
  domain : String
deriving DecidableEq, Repr

/-- `AIChatActivity` dataclass (src/collectors/ai_chats.py). -/
structure AIChatActivity where
  timestamp : Timestamp
  aiService : String
  conversationId : String
  userMessage : String
  aiResponse : String
  topic : String
  messageCount : Nat
deriving DecidableEq, Repr

/-- `GitActivity` dataclass (src/collectors/git.py, lines 16-30). -/
structure GitActivity where
  timestamp : Timestamp
  activityType : String
  repository : String
  branch : String
  commitHash : Option String
  commitMessage : String
  author : String
  filesChanged : List String
  insertions : Nat
  deletions : Nat
  repositoryPath : String
deriving DecidableEq, Repr

/-- The `details` dict attached by the two processors that exist in
`DataAggregator` (`_process_browser_activities`, `_process_ai_chat_activities`). -/
inductive ActivityDetails where
  | browser (url domain browser : String) (visitCount : Nat)
  | aiChat (aiService topic conversationId userMessage aiResponse : String)
      (messageCount : Nat)
deriving DecidableEq, Repr

/-- `ActivityEntry` dataclass (src/processors/aggregator.py, lines 13-20). -/
structure ActivityEntry where
  timestamp : Timestamp
  activityType : String
  title : String
  details : ActivityDetails
  category : String
deriving DecidableEq, Repr

/-- The categorization keyword lists read from the settings store
(`processing.categorization.*`; src/processors/aggregator.py lines 111-113). -/
structure CatSettings where
  workKeywords : List String
  learningKeywords : List String
  entertainmentKeywords : List String
deriving DecidableEq, Repr

/-! ## DataAggregator (src/processors/aggregator.py) -/

/-- One keyword test of `_categorize_browser_activity`:
`keyword.lower() in url_lower or keyword.lower() in title_lower or keyword.lower() in domain_lower`. -/
def keywordHit (kw urlLower titleLower domainLower : String) : Bool :=
  pyIn (pyLower kw) urlLower || pyIn (pyLower kw) titleLower || pyIn (pyLower kw) domainLower

/-- `DataAggregator._categorize_browser_activity` (lines 104-138). -/
def categorizeBrowserActivity (s : CatSettings) (a : BrowserActivity) : String :=
  let urlLower := pyLower a.url
  let titleLower := pyLower a.title
  let domainLower := pyLower a.domain
  if s.workKeywords.any (fun kw => keywordHit kw urlLower titleLower domainLower) then "work"
  else if s.learningKeywords.any (fun kw => keywordHit kw urlLower titleLower domainLower) then
    "learning"
  else if s.entertainmentKeywords.any (fun kw => keywordHit kw urlLower titleLower domainLower) then
    "entertainment"
  else if ["github.com", "stackoverflow.com", "docs.microsoft.com"].any
      (fun d => pyIn d domainLower) then "work"
  else if ["youtube.com", "netflix.com", "twitch.tv"].any (fun d => pyIn d domainLower) then
    "entertainment"
  else if ["wikipedia.org", "coursera.org", "udemy.com"].any (fun d => pyIn d domainLower) then
    "learning"
  else "general"

/-- `DataAggregator._categorize_ai_chat_activity` (lines 140-166). -/
def categorizeAIChatActivity (a : AIChatActivity) : String :=
  let topicLower := pyLower a.topic
  let userMessageLower := pyLower a.userMessage
  if ["programming", "code", "debug", "function", "python", "javascript", "git", "api"].any
      (fun kw => pyIn kw topicLower || pyIn kw userMessageLower) then "work"
  else if ["learning", "explain", "what is", "how to", "tutorial", "understand"].any
      (fun kw => pyIn kw topicLower || pyIn kw userMessageLower) then "learning"
  else if ["problem solving", "fix", "error", "issue", "help", "troubleshoot"].any
      (fun kw => pyIn kw topicLower || pyIn kw userMessageLower) then "work"
  else if ["creation", "write", "generate", "create", "design", "plan"].any
      (fun kw => pyIn kw topicLower || pyIn kw userMessageLower) then "work"
  else "learning"

/-- Element step of `DataAggregator._process_browser_activities` (lines 49-72). -/
def processBrowserActivity (s : CatSettings) (b : BrowserActivity) : ActivityEntry :=
  { timestamp := b.timestamp
    activityType := "browser"
    title := b.title
    details := .browser b.url b.domain b.browser b.visitCount
    category := categorizeBrowserActivity s b }

/-- Element step of `DataAggregator._process_ai_chat_activities` (lines 74-102). -/
def processAIChatActivity (c : AIChatActivity) : ActivityEntry :=
  { timestamp := c.timestamp
    activityType := "ai_chat"
    title := pyTitleCase c.aiService ++ " Chat: " ++ c.topic
    details := .aiChat c.aiService c.topic c.conversationId c.userMessage c.aiResponse
      c.messageCount
    category := categorizeAIChatActivity c }

/-- The deduplication key of `_remove_duplicates` (lines 175-179):
`(timestamp.replace(second=0, microsecond=0), activity_type, title[:100])`. -/
def dedupKey (a : ActivityEntry) : Timestamp × String × String :=
  (truncToMinute a.timestamp, a.activityType, pyTake 100 a.title)

/-- Loop of `DataAggregator._remove_duplicates` (lines 168-185): `seen` is the
set of keys already kept, entries whose key is unseen are appended in order. -/
def removeDuplicatesAux (seen : List (Timestamp × String × String)) :
    List ActivityEntry → List ActivityEntry
  | [] => []
  | a :: rest =>
    if dedupKey a ∈ seen then removeDuplicatesAux seen rest
    else a :: removeDuplicatesAux (dedupKey a :: seen) rest

/-- `DataAggregator._remove_duplicates`. -/
def removeDuplicates (l : List ActivityEntry) : List ActivityEntry :=
  removeDuplicatesAux [] l

/-- Stable insertion used to model Python `sorted(..., key=lambda x: x.timestamp)`:
the new element goes before the first element with a timestamp not below it,
so elements with equal timestamps keep their input order. -/
def insertByTimestamp (a : ActivityEntry) : List ActivityEntry → List ActivityEntry
  | [] => [a]
  | b :: l => if b.timestamp < a.timestamp then b :: insertByTimestamp a l else a :: b :: l

/-- Python `sorted(unique_activities, key=lambda x: x.timestamp)`: `sorted` is the
stable sort by the key, which insertion sort with `insertByTimestamp` realizes. -/
def sortByTimestamp : List ActivityEntry → List ActivityEntry
  | [] => []
  | a :: l => insertByTimestamp a (sortByTimestamp l)

/-- One input collection handed to `DataAggregator.combine`.  The call sites
(src/main.py line 84, src/test_daylog.py line 163) pass homogeneous lists, and
`combine` dispatches on `isinstance(collection[0], ...)`; the tag records the
element type of such a homogeneous collection. -/
inductive SourceCollection where
  | browser (items : List BrowserActivity)
  | aiChat (items : List AIChatActivity)
  | git (items : List GitActivity)
deriving DecidableEq, Repr

/-- The dispatch of `DataAggregator.combine` (lines 34-43): browser and AI-chat
collections are processed; any other collection type falls through the
`isinstance` chain to the `TODO` comment and contributes nothing. -/
def processCollection (s : CatSettings) : SourceCollection → List ActivityEntry
  | .browser items => items.map (processBrowserActivity s)
  | .aiChat items => items.map processAIChatActivity
  | .git _ => []

/-- `DataAggregator.combine` (lines 30-47). -/
def combine (s : CatSettings) (cols : List SourceCollection) : List ActivityEntry :=
  sortByTimestamp (removeDuplicates (List.flatten (cols.map (processCollection s))))

/-- `d[k] = d.get(k, 0) + 1` on an insertion-ordered dict, modelled as an
association list. -/
def dictIncr {K : Type} [DecidableEq K] (m : List (K × Nat)) (k : K) : List (K × Nat) :=
  match m with
  | [] => [(k, 1)]
  | (k0, v) :: rest => if k0 = k then (k0, v + 1) :: rest else (k0, v) :: dictIncr rest k

/-- The statistics dict built by `get_statistics` for a non-empty input. -/
structure Statistics where
  totalActivities : Nat
  timeRangeStart : Timestamp
  timeRangeEnd : Timestamp
  byCategory : List (String × Nat)
  byType : List (String × Nat)
  byHour : List (Nat × Nat)
deriving DecidableEq, Repr

/-- `DataAggregator.get_statistics` (lines 187-218).  The Python function
returns the empty dict `{}` for an empty input — no keys at all — which is
modelled as `none`; a populated dict is `some` of the record. -/
def getStatistics (l : List ActivityEntry) : Option Statistics :=
  match l with
  | [] => none
  | a :: rest =>
    some
      { totalActivities := (a :: rest).length
        timeRangeStart := rest.foldl (fun m b => Nat.min m b.timestamp) a.timestamp
        timeRangeEnd := rest.foldl (fun m b => Nat.max m b.timestamp) a.timestamp
        byCategory := (a :: rest).foldl (fun m x => dictIncr m x.category) []
        byType := (a :: rest).foldl (fun m x => dictIncr m x.activityType) []
        byHour := (a :: rest).foldl (fun m x => dictIncr m (hourOfDay x.timestamp)) [] }

/-! ## GitCollector: commit log parsing (src/collectors/git.py, lines 241-316) -/

/-- One parsed commit dict produced by `_parse_git_log_output`. -/
structure CommitData where
  hash : String
  author : String
  authorEmail : String
  timestamp : Timestamp
  message : String
  branch : String
  files : List String
  insertions : Int
  deletions : Int
deriving DecidableEq, Repr

/-- Digit string to number. -/
def digitsToNat (cs : List Char) : Nat :=
  cs.foldl (fun n c => n * 10 + (c.toNat - '0'.toNat)) 0

/-- Python `int(s)` on the numeral formats appearing in `--numstat` output:
optional sign followed by a nonempty digit string, surrounding whitespace
ignored; anything else raises `ValueError`, modelled as `none`. -/
def pyInt (s : String) : Option Int :=
  match (pyStrip s).toList with
  | '-' :: ds => if ds ≠ [] ∧ ds.all Char.isDigit then some (-(digitsToNat ds : Int)) else none
  | '+' :: ds => if ds ≠ [] ∧ ds.all Char.isDigit then some ((digitsToNat ds : Int)) else none
  | ds => if ds ≠ [] ∧ ds.all Char.isDigit then some ((digitsToNat ds : Int)) else none

/-- Split a character list at the first occurrence of `c`, if any. -/
def splitFirst (c : Char) : List Char → Option (List Char × List Char)
  | [] => none
  | a :: l =>
    if a = c then some ([], l)
    else
      match splitFirst c l with
      | none => none
      | some (pre, post) => some (a :: pre, post)

/-- Python `s.split(sep, maxsplit)` for a single-character separator. -/
def splitCharLimit (c : Char) : Nat → List Char → List String
  | 0, l => [String.mk l]
  | n + 1, l =>
    match splitFirst c l with
    | none => [String.mk l]
    | some (pre, post) => String.mk pre :: splitCharLimit c n post

/-- Python `s.split(sep)` (no limit) for a single-character separator:
empty pieces are kept, `"".split(sep) == [""]`. -/
def splitCharAll (c : Char) (l : List Char) : List String :=
  (l.foldr
      (fun a acc =>
        if a = c then [] :: acc
        else
          match acc with
          | h :: t => (a :: h) :: t
          | [] => [[a]])
      [[]]).map String.mk

/-- One `--numstat` line (git.py lines 280-293): requires a tab, at least three
tab-separated fields, numeric first two fields where a `-` placeholder counts
as zero; a `ValueError` in either numeric field skips the line. -/
def parseStatLine (raw : String) : Option (Int × Int × String) :=
  let statLine := pyStrip raw
  if pyHasChar '\t' statLine then
    match splitCharAll '\t' statLine.toList with
    | p0 :: p1 :: p2 :: _ =>
      match (if p0 = "-" then some 0 else pyInt p0), (if p1 = "-" then some 0 else pyInt p1) with
      | some ins, some dels => some (ins, dels, p2)
      | _, _ => none
    | _ => none
  else none

/-- The loop condition of the inner numstat loop (git.py line 279):
`lines[i].strip() and '|' not in lines[i]` — note the `'|'` test is on the
unstripped line. -/
def isStatBlockLine (l : String) : Bool :=
  pyStrip l ≠ "" && !(pyHasChar '|' l)

/-- Accumulation of the inner numstat loop over one commit's stat block
(git.py lines 273-294): insertions and deletions are summed, file paths are
appended in order, invalid lines contribute nothing. -/
def statTotals (ls : List String) : Int × Int × List String :=
  ls.foldr
    (fun l acc =>
      match parseStatLine l with
      | some (i, d, f) => (i + acc.1, d + acc.2.1, f :: acc.2.2)
      | none => acc)
    (0, 0, [])

/-- The outer loop of `_parse_git_log_output` (git.py lines 246-314), with the
external pieces as parameters: `parseTs` models `datetime.fromisoformat` on
the header's timestamp field (`none` when it raises), `now` models
`datetime.now()` (the fallback timestamp, line 270), and `branchFor` models
`_get_branch_for_commit` (a git subprocess, line 297).  The fuel argument is
instantiated with the number of lines, which bounds the loop. -/
def parseGitLogLinesAux (parseTs : String → Option Timestamp) (now : Timestamp)
    (branchFor : String → String) : Nat → List String → List CommitData
  | 0, _ => []
  | _, [] => []
  | fuel + 1, l :: rest =>
    let line := pyStrip l
    if line = "" then parseGitLogLinesAux parseTs now branchFor fuel rest
    else if pyHasChar '|' line then
      match splitCharLimit '|' 5 line.toList with
      | h :: a :: e :: dt :: subj :: restParts =>
        let body := restParts.headD ""
        let stats := statTotals (rest.takeWhile isStatBlockLine)
        { hash := h
          author := a
          authorEmail := e
          timestamp := (parseTs dt).getD now
          message := pyStrip (subj ++ " " ++ body)
          branch := branchFor h
          files := stats.2.2
          insertions := stats.1
          deletions := stats.2.1 }
          :: parseGitLogLinesAux parseTs now branchFor fuel (rest.dropWhile isStatBlockLine)
      | _ => parseGitLogLinesAux parseTs now branchFor fuel rest
    else parseGitLogLinesAux parseTs now branchFor fuel rest

/-- `GitCollector._parse_git_log_output` on a list of lines. -/
def parseGitLogLines (parseTs : String → Option Timestamp) (now : Timestamp)
    (branchFor : String → String) (lines : List String) : List CommitData :=
  parseGitLogLinesAux parseTs now branchFor lines.length lines

/-- `GitCollector._parse_git_log_output` on the raw subprocess output:
`output.strip().split('\n')` then the line loop. -/
def parseGitLogOutput (parseTs : String → Option Timestamp) (now : Timestamp)
    (branchFor : String → String) (output : String) : List CommitData :=
  parseGitLogLines parseTs now branchFor (splitCharAll '\n' (pyStrip output).toList)

/-! ## GitCollector: author filter (git.py lines 44-64 and 140-144) -/

/-- `GitCollector._get_author_emails`: the global `git config user.email`
result (when the subprocess succeeds) followed by the configured
`data_sources.git.author_emails` list; the wildcard sentinel `['*']` when both
are empty. -/
def getAuthorEmails (globalConfigEmail : Option String) (configuredEmails : List String) :
    List String :=
  let emails := globalConfigEmail.toList ++ configuredEmails
  if emails = [] then ["*"] else emails

/-- The author filter inside `_collect_repository_activity` (lines 140-144):
with the sentinel every commit is kept, otherwise a commit is kept when some
configured address occurs in its author email (`email in commit_data['author_email']`). -/
def filterCommitsByAuthor (authorEmails : List String) (commits : List CommitData) :
    List CommitData :=
  if authorEmails = ["*"] then commits
  else commits.filter (fun c => authorEmails.any (fun e => pyIn e c.authorEmail))

/-! ## GitCollector: repository discovery (git.py lines 95-122) -/

/-- A directory subtree: `hasGit` is whether `dir / '.git'` exists; `children`
are the subdirectories yielded by `iterdir()` (entries failing `is_dir()` are
not represented, and permission errors prune the affected listing before the
model is formed). -/
inductive DirTree where
  | node (name : String) (hasGit : Bool) (children : List DirTree)
deriving Repr

def DirTree.name : DirTree → String
  | .node n _ _ => n

def DirTree.hasGit : DirTree → Bool
  | .node _ g _ => g

def DirTree.children : DirTree → List DirTree
  | .node _ _ cs => cs

/-- `GitCollector._find_git_repositories`: the root when it has `.git`, then
for each non-hidden immediate child the child itself (when it has `.git`)
followed by its own children that have `.git`.  Results are paths of component
names relative to the root. -/
def findGitRepositories (root : DirTree) : List (List String) :=
  (if root.hasGit then [([] : List String)] else []) ++
    List.flatten
      (root.children.map (fun item =>
        if !(pyStartsWith "." item.name) then
          (if item.hasGit then [[item.name]] else []) ++
            List.flatten
              (item.children.map (fun sub => if sub.hasGit then [[item.name, sub.name]] else []))
        else []))

/-! ## BrowserCollector: timestamp codec (src/collectors/browser.py)

The source computes the day window with Python `datetime`/`timedelta`
arithmetic, which is exact integer arithmetic on (days, seconds,
microseconds), followed by `total_seconds() * 1000000` (Chromium) or
`timestamp() * 1000000` (Firefox) and truncation with `int(...)`.  For the
values involved — whole microseconds at a local midnight — every intermediate
float is exactly representable (the products are divisible by `2^6` and lie
below `2^59`), so the computation below, carried out directly over integer
microseconds, reproduces the source's values bit for bit.  Decoding is
`chrome_epoch + timedelta(microseconds=t)` (integer arithmetic) for Chromium
and `datetime.fromtimestamp(t / 1000000)` for Firefox, whose rounding to the
nearest microsecond recovers the integer microsecond value exactly. -/

def usPerDay : Nat := 86400000000

/-- `int((datetime.combine(d, time.min) - datetime(1601,1,1)).total_seconds() * 1000000)`
for a date `d` lying `days` calendar days after 1601-01-01 (browser.py lines 112-119). -/
def chromeEncodeMidnight (days : Nat) : Nat := days * usPerDay

/-- The half-open Chromium day window `[start, end)` queried by
`_collect_chromium_history`. -/
def chromeDayWindow (days : Nat) : Nat × Nat :=
  (chromeEncodeMidnight days, chromeEncodeMidnight (days + 1))

/-- `chrome_epoch + timedelta(microseconds=t)` (browser.py line 139), as the
calendar pair (days since 1601-01-01, microseconds into the day). -/
def chromeToCanonical (t : Nat) : Nat × Nat :=
  (t / usPerDay, t % usPerDay)

/-- `int(datetime.combine(d, time.min).timestamp() * 1000000)` for a date `d`
lying `days` calendar days after 1970-01-01, under a fixed local UTC offset of
`off` seconds (local time = UTC + `off`; browser.py lines 185-189). -/
def firefoxEncodeMidnight (days off : Int) : Int :=
  (days * 86400 - off) * 1000000

/-- The half-open Firefox day window `[start, end)` queried by
`_collect_firefox_history`. -/
def firefoxDayWindow (days off : Int) : Int × Int :=
  (firefoxEncodeMidnight days off, firefoxEncodeMidnight (days + 1) off)

/-- `datetime.fromtimestamp(t / 1000000)` (browser.py line 208), expressed as
local-calendar microseconds since local 1970-01-01 00:00. -/
def firefoxToCanonicalLocalUs (t off : Int) : Int :=
  t + off * 1000000

/-! ## Deduplication lemmas -/

/-- Entries surviving `removeDuplicatesAux` never carry a key from `seen`. -/
theorem removeDuplicatesAux_key_not_seen (l : List ActivityEntry) :
    ∀ (seen : List (Timestamp × String × String)) (a : ActivityEntry),
      a ∈ removeDuplicatesAux seen l → dedupKey a ∉ seen := by
  induction l with
  | nil => intro seen a h; simp [removeDuplicatesAux] at h
  | cons b rest ih =>
    intro seen a h
    by_cases hk : dedupKey b ∈ seen
    · rw [removeDuplicatesAux, if_pos hk] at h
      exact ih seen a h
    · rw [removeDuplicatesAux, if_neg hk] at h
      rcases List.mem_cons.mp h with h1 | h2
      · subst h1; exact hk
      · intro hmem
        exact (ih _ a h2) (List.mem_cons_of_mem _ hmem)

/-- The output of `removeDuplicatesAux` has pairwise distinct keys. -/
theorem removeDuplicatesAux_pairwise (l : List ActivityEntry) :
    ∀ seen, (removeDuplicatesAux seen l).Pairwise (fun x y => dedupKey x ≠ dedupKey y) := by
  induction l with
  | nil => intro seen; simp [removeDuplicatesAux]
  | cons b rest ih =>
    intro seen
    by_cases hk : dedupKey b ∈ seen
    · rw [removeDuplicatesAux, if_pos hk]; exact ih seen
    · rw [removeDuplicatesAux, if_neg hk]
      refine List.Pairwise.cons ?_ (ih _)
      intro y hy hkey
      exact removeDuplicatesAux_key_not_seen rest _ y hy
        (by rw [← hkey]; exact List.mem_cons_self _ _)

/-- `removeDuplicatesAux` keeps a subsequence of its input. -/
theorem removeDuplicatesAux_sublist (l : List ActivityEntry) :
    ∀ seen, (removeDuplicatesAux seen l).Sublist l := by
  induction l with
  | nil => intro seen; simp [removeDuplicatesAux]
  | cons b rest ih =>
    intro seen
    by_cases hk : dedupKey b ∈ seen
    · rw [removeDuplicatesAux, if_pos hk]; exact (ih seen).cons _
    · rw [removeDuplicatesAux, if_neg hk]; exact (ih _).cons₂ _

/-- An already key-distinct list whose keys avoid `seen` passes through
`removeDuplicatesAux` unchanged. -/
theorem removeDuplicatesAux_of_pairwise (l : List ActivityEntry) :
    ∀ seen, l.Pairwise (fun x y => dedupKey x ≠ dedupKey y) →
      (∀ a ∈ l, dedupKey a ∉ seen) → removeDuplicatesAux seen l = l := by
  induction l with
  | nil => intro seen _ _; simp [removeDuplicatesAux]
  | cons b rest ih =>
    intro seen hp hseen
    have hb : dedupKey b ∉ seen := hseen b (List.mem_cons_self _ _)
    rw [removeDuplicatesAux, if_neg hb]
    congr 1
    refine ih _ hp.of_cons ?_
    intro a ha
    rw [List.mem_cons]
    rintro (h1 | h2)
    · exact (List.rel_of_pairwise_cons hp ha) h1.symm
    · exact hseen a (List.mem_cons_of_mem _ ha) h2

/-- Specification-side formulation of the deduplication step: walk the input
keeping an entry exactly when no entry of the already-walked prefix shares its
deduplication key (first occurrence per key, in stable input order). -/
def firstOccurrencesAux (pre : List ActivityEntry) : List ActivityEntry → List ActivityEntry
  | [] => []
  | a :: rest =>
    if pre.any (fun b => decide (dedupKey b = dedupKey a)) then
      firstOccurrencesAux (pre ++ [a]) rest
    else a :: firstOccurrencesAux (pre ++ [a]) rest

/-- Specification-side deduplication: keep only the first occurrence per key. -/
def firstOccurrences (l : List ActivityEntry) : List ActivityEntry :=
  firstOccurrencesAux [] l

/-- The seen-set loop agrees with the first-occurrence specification whenever
`seen` holds exactly the keys of the walked prefix. -/
theorem removeDuplicatesAux_eq_firstOccurrencesAux (l : List ActivityEntry) :
    ∀ (seen : List (Timestamp × String × String)) (pre : List ActivityEntry),
      (∀ k, k ∈ seen ↔ pre.any (fun b => decide (dedupKey b = k)) = true) →
      removeDuplicatesAux seen l = firstOccurrencesAux pre l := by
  induction l with
  | nil => intro seen pre _; simp [removeDuplicatesAux, firstOccurrencesAux]
  | cons a rest ih =>
    intro seen pre hinv
    by_cases hk : dedupKey a ∈ seen
    · rw [removeDuplicatesAux, if_pos hk, firstOccurrencesAux, if_pos ((hinv _).mp hk)]
      refine ih seen (pre ++ [a]) ?_
      intro k
      rw [hinv k]
      simp only [List.any_append, List.any_cons, List.any_nil, Bool.or_false,
        Bool.or_eq_true, decide_eq_true_eq]
      constructor
      · intro h; exact Or.inl h
      · rintro (h | h)
        · exact h
        · subst h
          exact (hinv _).mp hk
    · rw [removeDuplicatesAux, if_neg hk, firstOccurrencesAux,
        if_neg (fun hc => hk ((hinv _).mpr hc))]
      congr 1
      refine ih _ (pre ++ [a]) ?_
      intro k
      simp only [List.mem_cons, hinv k, List.any_append, List.any_cons, List.any_nil,
        Bool.or_false, Bool.or_eq_true, decide_eq_true_eq]
      constructor
      · rintro (h | h)
        · exact Or.inr h.symm
        · exact Or.inl h
      · rintro (h | h)
        · exact Or.inr h
        · exact Or.inl h.symm

/-- `_remove_duplicates` keeps exactly the first occurrence per key. -/
theorem removeDuplicates_eq_firstOccurrences (l : List ActivityEntry) :
    removeDuplicates l = firstOccurrences l :=
  removeDuplicatesAux_eq_firstOccurrencesAux l [] [] (by simp)

/-! ## Sorting lemmas -/

theorem mem_insertByTimestamp {x a : ActivityEntry} :
    ∀ {l : List ActivityEntry}, x ∈ insertByTimestamp a l ↔ x = a ∨ x ∈ l := by
  intro l
  induction l with
  | nil => simp [insertByTimestamp]
  | cons b t ih =>
    rw [insertByTimestamp]
    by_cases h : b.timestamp < a.timestamp
    · rw [if_pos h]
      simp only [List.mem_cons, ih]
      tauto
    · rw [if_neg h]
      simp only [List.mem_cons]

theorem insertByTimestamp_perm (a : ActivityEntry) (l : List ActivityEntry) :
    List.Perm (insertByTimestamp a l) (a :: l) := by
  induction l with
  | nil => rfl
  | cons b t ih =>
    rw [insertByTimestamp]
    by_cases h : b.timestamp < a.timestamp
    · rw [if_pos h]
      exact (ih.cons b).trans (List.Perm.swap a b t)
    · rw [if_neg h]

theorem insertByTimestamp_pairwise {a : ActivityEntry} :
    ∀ {l : List ActivityEntry},
      l.Pairwise (fun x y => x.timestamp ≤ y.timestamp) →
      (insertByTimestamp a l).Pairwise (fun x y => x.timestamp ≤ y.timestamp) := by
  intro l
  induction l with
  | nil => intro _; simp [insertByTimestamp]
  | cons b t ih =>
    intro hp
    rw [insertByTimestamp]
    by_cases h : b.timestamp < a.timestamp
    · rw [if_pos h]
      refine List.Pairwise.cons ?_ (ih hp.of_cons)
      intro c hc
      rcases mem_insertByTimestamp.mp hc with h1 | h2
      · subst h1; exact Nat.le_of_lt h
      · exact List.rel_of_pairwise_cons hp h2
    · rw [if_neg h]
      refine List.Pairwise.cons ?_ hp
      intro c hc
      rcases List.mem_cons.mp hc with h1 | h2
      · subst h1; exact Nat.le_of_not_lt h
      · exact Nat.le_trans (Nat.le_of_not_lt h) (List.rel_of_pairwise_cons hp h2)

theorem sortByTimestamp_pairwise (l : List ActivityEntry) :
    (sortByTimestamp l).Pairwise (fun x y => x.timestamp ≤ y.timestamp) := by
  induction l with
  | nil => simp [sortByTimestamp]
  | cons a t ih => exact insertByTimestamp_pairwise ih

theorem sortByTimestamp_perm (l : List ActivityEntry) : List.Perm (sortByTimestamp l) l := by
  induction l with
  | nil => rfl
  | cons a t ih => exact (insertByTimestamp_perm a (sortByTimestamp t)).trans (ih.cons a)

/-- A stable sort leaves an already sorted list unchanged. -/
theorem sortByTimestamp_of_pairwise :
    ∀ {l : List ActivityEntry},
      l.Pairwise (fun x y => x.timestamp ≤ y.timestamp) → sortByTimestamp l = l := by
  intro l
  induction l with
  | nil => intro _; rfl
  | cons a t ih =>
    intro hp
    rw [sortByTimestamp, ih hp.of_cons]
    cases t with
    | nil => rfl
    | cons b u =>
      rw [insertByTimestamp,
        if_neg (Nat.not_lt.mpr (List.rel_of_pairwise_cons hp (List.mem_cons_self _ _)))]

/-! ## Concrete inputs for the aggregation claims -/

def c1Settings : CatSettings :=
  { workKeywords := [], learningKeywords := [], entertainmentKeywords := [] }

/-- The browser visit of the end-to-end scenario: `github.com`, titled
"Pull Request #4". -/
def c1Visit : BrowserActivity :=
  { timestamp := 1000000000
    url := "https://github.com/org/repo/pull/4"
    title := "Pull Request #4"
    visitCount := 1
    browser := "chrome"
    domain := "github.com" }

/-- The git commit of the end-to-end scenario: message "Fix login bug". -/
def c1Commit : GitActivity :=
  { timestamp := 2000000000
    activityType := "commit"
    repository := "Work_Log"
    branch := "main"
    commitHash := some "abc123"
    commitMessage := "Fix login bug"
    author := "Dev"
    filesChanged := ["auth.py"]
    insertions := 3
    deletions := 1
    repositoryPath := "/home/dev/Work_Log" }

/-- The branch switch of the end-to-end scenario: `main` to `feature/x`. -/
def c1Switch : GitActivity :=
  { timestamp := 3000000000
    activityType := "branch_switch"
    repository := "Work_Log"
    branch := "feature/x"
    commitHash := none
    commitMessage := "Switched from main to feature/x"
    author := "Dev"
    filesChanged := []
    insertions := 0
    deletions := 0
    repositoryPath := "/home/dev/Work_Log" }

/-- A 100-character title stem. -/
def longTitle : String := String.mk (List.replicate 100 'a')

/-- First of two entries of the same kind whose titles agree on the first 100
characters and whose timestamps are 30 seconds apart inside one minute. -/
def dupEntryA : ActivityEntry :=
  { timestamp := 0
    activityType := "browser"
    title := longTitle ++ "X"
    details := .browser "https://a.example" "a.example" "chrome" 1
    category := "general" }

/-- Second of the pair: 30 seconds later, title differing after character 100. -/
def dupEntryB : ActivityEntry :=
  { timestamp := 30000000
    activityType := "browser"
    title := longTitle ++ "Y"
    details := .browser "https://b.example" "b.example" "chrome" 2
    category := "general" }

/-- First of two otherwise identical entries 61 seconds apart, crossing a
minute boundary (second 30 and second 91). -/
def minuteEntryA : ActivityEntry :=
  { timestamp := 30000000
    activityType := "browser"
    title := "same title"
    details := .browser "https://a.example" "a.example" "chrome" 1
    category := "general" }

/-- The partner entry 61 seconds later. -/
def minuteEntryB : ActivityEntry :=
  { timestamp := 91000000
    activityType := "browser"
    title := "same title"
    details := .browser "https://a.example" "a.example" "chrome" 1
    category := "general" }

/-! ## Claim theorems: aggregation -/

/-- C1: evaluating `DataAggregator.combine` on the end-to-end scenario — one
browser visit to github.com titled "Pull Request #4", one commit with message
"Fix login bug" and one branch switch from main to feature/x — returns only
the single browser Activity (categorized "work"), not the claimed 3 entries:
the `isinstance` dispatch of `combine` has no processor for `GitActivity`
collections (the `TODO` at aggregator.py line 43), although main.py,
test_daylog.py and report_generator.py all hand git collections to `combine`
and expect `git` entries in its output. -/
theorem combine_drops_git_records :
    combine c1Settings
        [SourceCollection.browser [c1Visit], SourceCollection.git [c1Commit, c1Switch]]
      = [{ timestamp := 1000000000
           activityType := "browser"
           title := "Pull Request #4"
           details := .browser "https://github.com/org/repo/pull/4" "github.com" "chrome" 1
           category := "work" }]
    ∧ (combine c1Settings
        [SourceCollection.browser [c1Visit], SourceCollection.git [c1Commit, c1Switch]]).length
      ≠ 3 := by
  decide

/-- C3: within one aggregation pass no two surviving activities share the
(source kind, minute-truncated timestamp, first-100-characters-of-title)
deduplication key; the first occurrence per key in stable input order is
kept; seconds are truncated, not rounded, so two same-kind entries whose
titles agree up to character 100 and whose timestamps are 30 seconds apart
within one minute deduplicate to the first, while two entries 61 seconds
apart whose minute truncations differ are both retained. -/
theorem dedup_key_invariant :
    (∀ l : List ActivityEntry,
        (removeDuplicates l).Pairwise (fun x y => dedupKey x ≠ dedupKey y))
    ∧ (∀ l : List ActivityEntry, removeDuplicates l = firstOccurrences l)
    ∧ removeDuplicates [dupEntryA, dupEntryB] = [dupEntryA]
    ∧ removeDuplicates [minuteEntryA, minuteEntryB] = [minuteEntryA, minuteEntryB] := by
  refine ⟨fun l => removeDuplicatesAux_pairwise l [],
    removeDuplicates_eq_firstOccurrences, ?_, ?_⟩
  · decide
  · decide

/-- C4: deduplication is idempotent: running the deduplicate-and-sort stage of
`combine` a second time on `combine`'s own already-deduplicated output yields
the same sequence unchanged, and the number of deduplication keys (the length
of the re-deduplicated sequence) is stable. -/
theorem combine_idempotent (s : CatSettings) (cols : List SourceCollection) :
    sortByTimestamp (removeDuplicates (combine s cols)) = combine s cols
    ∧ (removeDuplicates (combine s cols)).length = (combine s cols).length := by
  have hdistinct : (combine s cols).Pairwise (fun x y => dedupKey x ≠ dedupKey y) := by
    have hperm := sortByTimestamp_perm
      (removeDuplicates (List.flatten (cols.map (processCollection s))))
    exact (hperm.pairwise_iff (fun {x y} h e => h e.symm)).mpr
      (removeDuplicatesAux_pairwise _ [])
  have hid : removeDuplicates (combine s cols) = combine s cols :=
    removeDuplicatesAux_of_pairwise _ [] hdistinct (by intro a _; simp)
  constructor
  · rw [hid]
    exact sortByTimestamp_of_pairwise (sortByTimestamp_pairwise _)
  · rw [hid]

/-! ## Commit log parsing lemmas and inputs -/

/-- The numstat totals of a stat block are the sums of the validly parsed
lines' insertion and deletion fields, and the ordered (non-deduplicated) list
of their paths. -/
theorem statTotals_spec (ls : List String) :
    statTotals ls =
      (((ls.filterMap parseStatLine).map (fun t => t.1)).sum,
       ((ls.filterMap parseStatLine).map (fun t => t.2.1)).sum,
       (ls.filterMap parseStatLine).map (fun t => t.2.2)) := by
  induction ls with
  | nil => rfl
  | cons l rest ih =>
    have step : statTotals (l :: rest) =
        match parseStatLine l with
        | some (i, d, f) =>
          (i + (statTotals rest).1, d + (statTotals rest).2.1, f :: (statTotals rest).2.2)
        | none => statTotals rest := rfl
    cases h : parseStatLine l with
    | none => simp [step, h, ih, List.filterMap_cons]
    | some t => simp [step, h, ih, List.filterMap_cons]

/-- Timestamp parser fixture for the two-commit sample. -/
def c5ParseTs : String → Option Timestamp := fun s =>
  if s = "2024-05-01T10:00:00" then some 1000000
  else if s = "2024-05-01T11:00:00" then some 2000000
  else none

/-- Branch resolution fixture (`_get_branch_for_commit` stand-in). -/
def mainBranchFor : String → String := fun _ => "main"

/-- A two-commit `git log --pretty --numstat` capture: the first commit has
two text stat lines for the same path and one binary stat line (`-` in both
numeric fields); the second has one stat line. -/
def c5Lines : List String :=
  ["abc123|Alice|alice@example.com|2024-05-01T10:00:00|Fix parser|more detail",
   "10\t2\tsrc/a.py",
   "-\t-\tassets/logo.png",
   "3\t1\tsrc/a.py",
   "",
   "def456|Bob|bob@example.com|2024-05-01T11:00:00|Add feature|",
   "5\t0\tsrc/b.py"]

/-- A single-commit capture whose header timestamp field does not parse. -/
def c6BadLines : List String :=
  ["x1|Ann|ann@e.com|NOT_A_TIMESTAMP|Subj|b"]

/-- The same commit with a parsable timestamp field. -/
def c6GoodLines : List String :=
  ["x1|Ann|ann@e.com|2024-05-01T10:00:00|Subj|b"]

/-- Timestamp parser fixture for the fallback comparison: the good header's
field parses to 777, everything else fails. -/
def c6ParseTs : String → Option Timestamp := fun s =>
  if s = "2024-05-01T10:00:00" then some 777 else none

/-! ## Claim theorems: commit log parsing -/

/-- C5: parsing a commit log with two commit header blocks, one containing a
binary-file numstat line (`-` placeholders), yields exactly two commit
records; the binary line contributes 0 insertions and 0 deletions but its
path is appended; and in general each commit's insertions and deletions are
the sums over its stat lines while its changed-file list is the ordered,
non-deduplicated list of the paths of those lines (the sample repeats
`src/a.py`, which is kept twice). -/
theorem parse_commit_log :
    (∀ ls : List String,
        statTotals ls =
          (((ls.filterMap parseStatLine).map (fun t => t.1)).sum,
           ((ls.filterMap parseStatLine).map (fun t => t.2.1)).sum,
           (ls.filterMap parseStatLine).map (fun t => t.2.2)))
    ∧ parseGitLogLines c5ParseTs 999 mainBranchFor c5Lines =
        [{ hash := "abc123"
           author := "Alice"
           authorEmail := "alice@example.com"
           timestamp := 1000000
           message := "Fix parser more detail"
           branch := "main"
           files := ["src/a.py", "assets/logo.png", "src/a.py"]
           insertions := 13
           deletions := 3 },
         { hash := "def456"
           author := "Bob"
           authorEmail := "bob@example.com"
           timestamp := 2000000
           message := "Add feature"
           branch := "main"
           files := ["src/b.py"]
           insertions := 5
           deletions := 0 }] := by
  refine ⟨statTotals_spec, ?_⟩
  decide

/-- C6 counterexample: the claim asserts a flagged low-confidence marker is
attached to a commit record whose header timestamp fails to parse.  The
parser's record (git.py lines 299-309) carries no such marker: the record
built from an unparsable timestamp at `now = 777` is identical, field for
field, to the record built from an ordinary header whose timestamp parses to
777 — the two cases are indistinguishable, so no marker is attached (the
record is still produced, as its length-1 output shows). -/
theorem unparsable_timestamp_no_marker :
    parseGitLogLines c6ParseTs 777 mainBranchFor c6BadLines
      = parseGitLogLines c6ParseTs 0 mainBranchFor c6GoodLines
    ∧ (parseGitLogLines c6ParseTs 777 mainBranchFor c6BadLines).length = 1 := by
  decide

/-- C6 amended: a commit header whose timestamp field fails to parse still
produces a commit record (it is not dropped) with the fallback timestamp set
to the current time; no low-confidence marker is attached to the record. -/
theorem unparsable_timestamp_fallback_now :
    ∀ (pt : String → Option Timestamp) (now : Timestamp) (bf : String → String),
      pt "NOT_A_TIMESTAMP" = none →
      parseGitLogLines pt now bf c6BadLines
        = [{ hash := "x1"
             author := "Ann"
             authorEmail := "ann@e.com"
             timestamp := now
             message := "Subj b"
             branch := bf "x1"
             files := []
             insertions := 0
             deletions := 0 }] := by
  intro pt now bf h
  have e : parseGitLogLines pt now bf c6BadLines
      = [{ hash := "x1"
           author := "Ann"
           authorEmail := "ann@e.com"
           timestamp := (pt "NOT_A_TIMESTAMP").getD now
           message := "Subj b"
           branch := bf "x1"
           files := []
           insertions := 0
           deletions := 0 }] := rfl
  rw [e, h]
  rfl

/-- C6 amended, witnessed at a concrete failing parser, `now = 424242` and a
constant branch resolver. -/
theorem unparsable_timestamp_fallback_now_witness :
    parseGitLogLines (fun _ => none) 424242 (fun _ => "main") c6BadLines
      = [{ hash := "x1"
           author := "Ann"
           authorEmail := "ann@e.com"
           timestamp := 424242
           message := "Subj b"
           branch := "main"
           files := []
           insertions := 0
           deletions := 0 }] :=
  unparsable_timestamp_fallback_now (fun _ => none) 424242 (fun _ => "main") rfl

/-! ## Browser categorization: specification-side formulation (for C8) -/

/-- The configured keyword tables in the claim's priority order. -/
def browserKeywordTables (s : CatSettings) : List (List String × String) :=
  [(s.workKeywords, "work"), (s.learningKeywords, "learning"),
   (s.entertainmentKeywords, "entertainment")]

/-- The claim's fixed well-known-domain tables: code-hosting and Q&A domains
map to work, major streaming domains to entertainment, encyclopedic and MOOC
domains to learning. -/
def browserDomainTables : List (List String × String) :=
  [(["github.com", "stackoverflow.com", "docs.microsoft.com"], "work"),
   (["youtube.com", "netflix.com", "twitch.tv"], "entertainment"),
   (["wikipedia.org", "coursera.org", "udemy.com"], "learning")]

/-- The category of the first table (in order) one of whose entries satisfies
the hit predicate, if any. -/
def firstTableMatch (tables : List (List String × String)) (hit : String → Bool) :
    Option String :=
  match tables with
  | [] => none
  | (kws, cat) :: rest => if kws.any hit then some cat else firstTableMatch rest hit

/-- Specification-side categorization, written from the claim's wording:
first-match precedence over the configured work, learning and entertainment
keyword lists (case-insensitive substring against URL, title and domain), then
the fixed well-known-domain table, otherwise "general". -/
def categorizeBrowserSpec (s : CatSettings) (a : BrowserActivity) : String :=
  match firstTableMatch (browserKeywordTables s)
      (fun kw => keywordHit kw (pyLower a.url) (pyLower a.title) (pyLower a.domain)) with
  | some c => c
  | none =>
    match firstTableMatch browserDomainTables (fun d => pyIn d (pyLower a.domain)) with
    | some c => c
    | none => "general"

/-! ## Claim theorems: categorization and author filter -/

/-- C8: for every browser visit and every keyword configuration,
`_categorize_browser_activity` computes exactly the claim's first-match
precedence: configured work, learning, entertainment keyword lists (each a
case-insensitive substring match against URL, title and domain), then the
fixed well-known-domain table, and "general" when nothing matches. -/
theorem categorize_browser_first_match (s : CatSettings) (a : BrowserActivity) :
    categorizeBrowserActivity s a = categorizeBrowserSpec s a := by
  unfold categorizeBrowserActivity categorizeBrowserSpec
  simp only [browserKeywordTables, browserDomainTables, firstTableMatch]
  split_ifs <;> rfl

/-- A commit by an author other than the configured one. -/
def c9OtherCommit : CommitData :=
  { hash := "h1"
    author := "Other"
    authorEmail := "other@example.com"
    timestamp := 0
    message := "m"
    branch := "main"
    files := []
    insertions := 0
    deletions := 0 }

/-- C9 counterexample: the claim says an empty configured address list makes
the filter accept every commit, but `_get_author_emails` also collects the
global `git config user.email`; with that global email present and an empty
configured list, a commit by a different author is dropped. -/
theorem author_filter_counterexample :
    filterCommitsByAuthor (getAuthorEmails (some "me@example.com") []) [c9OtherCommit]
      ≠ [c9OtherCommit] := by
  decide

/-- C9 amended: the address list is the global git-config email (when
available) followed by the configured addresses.  When that combined list is
not the wildcard sentinel, exactly the commits whose author email contains
one of its addresses as a substring are retained; the sentinel accept-all
behavior applies when the global email is unavailable and the configured
list is empty. -/
theorem author_filter_amended (g : Option String) (conf : List String)
    (commits : List CommitData) :
    (getAuthorEmails g conf ≠ ["*"] →
      ∀ c, c ∈ filterCommitsByAuthor (getAuthorEmails g conf) commits ↔
        c ∈ commits ∧ (g.toList ++ conf).any (fun e => pyIn e c.authorEmail) = true)
    ∧ (g = none → conf = [] →
        filterCommitsByAuthor (getAuthorEmails g conf) commits = commits) := by
  constructor
  · intro hne c
    have hnil : ¬ (g.toList ++ conf = []) := by
      intro h0
      apply hne
      unfold getAuthorEmails
      rw [h0]
      rfl
    have heq : getAuthorEmails g conf = g.toList ++ conf := by
      unfold getAuthorEmails
      rw [if_neg hnil]
    rw [filterCommitsByAuthor, if_neg (heq ▸ hne), heq, List.mem_filter]
  · rintro rfl rfl
    rfl

/-- C9 amended, witnessed: the matching author passes the non-wildcard filter
and the no-email configuration accepts every commit. -/
theorem author_filter_amended_witness :
    (c9OtherCommit ∈
        filterCommitsByAuthor (getAuthorEmails (some "other@example.com") []) [c9OtherCommit]
      ↔ c9OtherCommit ∈ [c9OtherCommit]
        ∧ ((some "other@example.com").toList ++ ([] : List String)).any
            (fun e => pyIn e c9OtherCommit.authorEmail) = true)
    ∧ filterCommitsByAuthor (getAuthorEmails none []) [c9OtherCommit] = [c9OtherCommit] :=
  ⟨(author_filter_amended (some "other@example.com") [] [c9OtherCommit]).1 (by decide)
      c9OtherCommit,
    (author_filter_amended none [] [c9OtherCommit]).2 rfl rfl⟩

/-! ## Repository discovery (C7) -/

/-- Example tree: a repository three levels below the configured root
(`root/a/b/c`) and one two levels below (`root/a2/b2`). -/
def c7Tree : DirTree :=
  .node "root" false
    [.node "a" false [.node "b" false [.node "c" true []]],
     .node "a2" false [.node "b2" true []]]

/-- C7: repository discovery finds the root itself when it has
version-control metadata, finds repositories among immediate children and
their immediate children, and nothing deeper: every discovered path has at
most two components, level-1 hidden directories (leading dot) are never
descended into (they contribute no path), and on the example tree the
repository two levels deep is found while the one three levels deep is not. -/
theorem find_git_repositories_depth :
    (∀ (root : DirTree) (p : List String),
        p ∈ findGitRepositories root ↔
          (p = [] ∧ root.hasGit = true)
          ∨ (∃ c, c ∈ root.children ∧ pyStartsWith "." c.name = false ∧ c.hasGit = true
              ∧ p = [c.name])
          ∨ (∃ c, c ∈ root.children ∧ pyStartsWith "." c.name = false
              ∧ ∃ s, s ∈ c.children ∧ s.hasGit = true ∧ p = [c.name, s.name]))
    ∧ (∀ (root : DirTree) (p : List String), p ∈ findGitRepositories root → p.length ≤ 2)
    ∧ findGitRepositories c7Tree = [["a2", "b2"]] := by
  have hchar : ∀ (root : DirTree) (p : List String),
      p ∈ findGitRepositories root ↔
        (p = [] ∧ root.hasGit = true)
        ∨ (∃ c, c ∈ root.children ∧ pyStartsWith "." c.name = false ∧ c.hasGit = true
            ∧ p = [c.name])
        ∨ (∃ c, c ∈ root.children ∧ pyStartsWith "." c.name = false
            ∧ ∃ s, s ∈ c.children ∧ s.hasGit = true ∧ p = [c.name, s.name]) := by
    intro root p
    unfold findGitRepositories
    constructor
    · intro hp
      rcases List.mem_append.mp hp with hroot | hrest
      · cases hg : root.hasGit with
        | false => rw [hg] at hroot; simp at hroot
        | true =>
          rw [hg] at hroot
          simp at hroot
          exact Or.inl ⟨hroot, rfl⟩
      · rw [List.mem_flatten] at hrest
        obtain ⟨blk, hblk, hpblk⟩ := hrest
        rw [List.mem_map] at hblk
        obtain ⟨c, hc, rfl⟩ := hblk
        cases hs : pyStartsWith "." c.name with
        | true => rw [hs] at hpblk; simp at hpblk
        | false =>
          rw [hs] at hpblk
          simp only [Bool.not_false, if_pos] at hpblk
          rcases List.mem_append.mp hpblk with hself | hdeep
          · cases hg2 : c.hasGit with
            | false => rw [hg2] at hself; simp at hself
            | true =>
              rw [hg2] at hself
              simp at hself
              exact Or.inr (Or.inl ⟨c, hc, hs, hg2, hself⟩)
          · rw [List.mem_flatten] at hdeep
            obtain ⟨blk2, hblk2, hpblk2⟩ := hdeep
            rw [List.mem_map] at hblk2
            obtain ⟨sub, hsub, rfl⟩ := hblk2
            cases hg3 : sub.hasGit with
            | false => rw [hg3] at hpblk2; simp at hpblk2
            | true =>
              rw [hg3] at hpblk2
              simp at hpblk2
              exact Or.inr (Or.inr ⟨c, hc, hs, sub, hsub, hg3, hpblk2⟩)
    · rintro (⟨rfl, hg⟩ | ⟨c, hc, hs, hg, rfl⟩ | ⟨c, hc, hs, s, hsc, hg, rfl⟩)
      · apply List.mem_append_left
        rw [hg]
        simp
      · apply List.mem_append_right
        rw [List.mem_flatten]
        refine ⟨_, List.mem_map_of_mem _ hc, ?_⟩
        rw [hs, hg]
        simp
      · apply List.mem_append_right
        rw [List.mem_flatten]
        refine ⟨_, List.mem_map_of_mem _ hc, ?_⟩
        rw [hs]
        simp only [Bool.not_false, if_pos]
        apply List.mem_append_right
        rw [List.mem_flatten]
        refine ⟨_, List.mem_map_of_mem _ hsc, ?_⟩
        rw [hg]
        simp
  refine ⟨hchar, ?_, by decide⟩
  intro root p hp
  rcases (hchar root p).mp hp with ⟨rfl, _⟩ | ⟨c, _, _, _, rfl⟩ | ⟨c, _, _, s, _, _, rfl⟩ <;>
    simp

/-- C7 witnessed at the example tree: the two-level repository is a member of
the discovery result and its path has at most two components. -/
theorem find_git_repositories_depth_witness :
    (["a2", "b2"] : List String).length ≤ 2
    ∧ ["a2", "b2"] ∈ findGitRepositories c7Tree :=
  ⟨find_git_repositories_depth.2.1 c7Tree ["a2", "b2"] (by decide), by decide⟩

/-! ## Statistics (C10) -/

/-- The keys of an incremented counting dict are the incremented key plus the
existing keys. -/
theorem dictIncr_keys {K : Type} [DecidableEq K] (m : List (K × Nat)) (k k0 : K) :
    (∃ n, (k0, n) ∈ dictIncr m k) ↔ k0 = k ∨ ∃ n, (k0, n) ∈ m := by
  induction m with
  | nil => simp [dictIncr]
  | cons e rest ih =>
    obtain ⟨k1, v⟩ := e
    rw [dictIncr]
    by_cases h : k1 = k
    · subst h
      rw [if_pos rfl]
      simp only [List.mem_cons, Prod.mk.injEq]
      constructor
      · rintro ⟨n, hn⟩
        rcases hn with ⟨h1, _⟩ | h2
        · exact Or.inl h1
        · exact Or.inr ⟨n, Or.inr h2⟩
      · rintro (h1 | ⟨n, hn⟩)
        · exact ⟨v + 1, Or.inl ⟨h1, rfl⟩⟩
        · rcases hn with ⟨h1, _⟩ | h2
          · exact ⟨v + 1, Or.inl ⟨h1, rfl⟩⟩
          · exact ⟨n, Or.inr h2⟩
    · rw [if_neg h]
      simp only [List.mem_cons, Prod.mk.injEq]
      constructor
      · rintro ⟨n, hn⟩
        rcases hn with ⟨h1, h2⟩ | h3
        · exact Or.inr ⟨n, Or.inl ⟨h1, h2⟩⟩
        · rcases ih.mp ⟨n, h3⟩ with h4 | ⟨n2, h5⟩
          · exact Or.inl h4
          · exact Or.inr ⟨n2, Or.inr h5⟩
      · rintro (h1 | ⟨n, hn⟩)
        · obtain ⟨n, h3⟩ := ih.mpr (Or.inl h1)
          exact ⟨n, Or.inr h3⟩
        · rcases hn with ⟨h1, h2⟩ | h4
          · exact ⟨n, Or.inl ⟨h1, h2⟩⟩
          · obtain ⟨n2, h5⟩ := ih.mpr (Or.inr ⟨n, h4⟩)
            exact ⟨n2, Or.inr h5⟩

/-- Folding the counting-dict update over a list produces exactly the keys of
the starting dict plus the images of the list elements. -/
theorem foldl_dictIncr_keys {K A : Type} [DecidableEq K] (f : A → K) (xs : List A) :
    ∀ (m : List (K × Nat)) (k : K),
      (∃ n, (k, n) ∈ xs.foldl (fun acc x => dictIncr acc (f x)) m) ↔
        (∃ n, (k, n) ∈ m) ∨ k ∈ xs.map f := by
  induction xs with
  | nil => simp
  | cons x rest ih =>
    intro m k
    rw [List.foldl_cons, ih, dictIncr_keys]
    simp only [List.map_cons, List.mem_cons]
    tauto

/-- C10: `get_statistics` of the empty sequence is the empty dict — `none`,
carrying no total, range or grouping keys — and for every non-empty sequence
the by-hour grouping has a key for an hour exactly when some activity
occurred in that hour. -/
theorem get_statistics_empty_and_hours :
    getStatistics ([] : List ActivityEntry) = none
    ∧ ∀ (l : List ActivityEntry) (st : Statistics), getStatistics l = some st →
        ∀ h : Nat, (∃ n, (h, n) ∈ st.byHour) ↔ ∃ a, a ∈ l ∧ hourOfDay a.timestamp = h := by
  refine ⟨rfl, ?_⟩
  intro l st hsome h
  cases l with
  | nil => simp [getStatistics] at hsome
  | cons a rest =>
    rw [getStatistics, Option.some.injEq] at hsome
    rw [← hsome]
    rw [foldl_dictIncr_keys (fun x => hourOfDay x.timestamp) (a :: rest) [] h]
    simp only [List.mem_map, List.mem_cons, List.not_mem_nil, Prod.mk.injEq, false_and,
      exists_false, false_or]

/-- An activity at hour 2 of the modelled day. -/
def c10Entry : ActivityEntry :=
  { timestamp := 2 * usPerHour + 5
    activityType := "browser"
    title := "t"
    details := .browser "https://a.example" "a.example" "chrome" 1
    category := "general" }

/-- C10 witnessed: at the singleton sequence holding `c10Entry`, the by-hour
keys are exactly the hour of that entry. -/
theorem get_statistics_empty_and_hours_witness :
    (∃ n, (2, n) ∈
        (Statistics.mk 1 (2 * usPerHour + 5) (2 * usPerHour + 5) [("general", 1)]
          [("browser", 1)] [(2, 1)]).byHour)
      ↔ ∃ a, a ∈ [c10Entry] ∧ hourOfDay a.timestamp = 2 :=
  get_statistics_empty_and_hours.2 [c10Entry]
    (Statistics.mk 1 (2 * usPerHour + 5) (2 * usPerHour + 5) [("general", 1)]
      [("browser", 1)] [(2, 1)]) (by decide) 2

/-! ## Claim theorem: timestamp codec (C2) -/

/-- C2: for every calendar date and both vendor epochs the encoded day-window
bounds form a half-open range of exactly one day; every encoded timestamp
inside the bounds decodes to a canonical time within
`[dayStart, dayStart + 24h)` (and, for Chromium, to the same calendar day);
and encoding a day then decoding its lower bound returns that day's local
midnight.  The arithmetic is exact: the integer-microsecond model reproduces
the source values with no rounding (see the codec section comment). -/
theorem timestamp_codec_day_window :
    (∀ days : Nat,
      (chromeDayWindow days).2 = (chromeDayWindow days).1 + usPerDay
      ∧ (∀ t : Nat, (chromeDayWindow days).1 ≤ t → t < (chromeDayWindow days).2 →
          (chromeToCanonical t).1 = days
          ∧ chromeEncodeMidnight days ≤ t ∧ t < chromeEncodeMidnight days + usPerDay)
      ∧ chromeToCanonical (chromeDayWindow days).1 = (days, 0))
    ∧ (∀ days off : Int,
      (firefoxDayWindow days off).2 = (firefoxDayWindow days off).1 + (usPerDay : Int)
      ∧ (∀ t : Int, (firefoxDayWindow days off).1 ≤ t → t < (firefoxDayWindow days off).2 →
          days * (usPerDay : Int) ≤ firefoxToCanonicalLocalUs t off
          ∧ firefoxToCanonicalLocalUs t off < days * (usPerDay : Int) + (usPerDay : Int))
      ∧ firefoxToCanonicalLocalUs (firefoxDayWindow days off).1 off
          = days * (usPerDay : Int)) := by
  constructor
  · intro days
    refine ⟨?_, ?_, ?_⟩
    · simp [chromeDayWindow, chromeEncodeMidnight, usPerDay]
      ring
    · intro t hlo hhi
      simp only [chromeDayWindow, chromeEncodeMidnight, chromeToCanonical, usPerDay] at *
      omega
    · simp only [chromeDayWindow, chromeEncodeMidnight, chromeToCanonical, usPerDay,
        Prod.mk.injEq]
      omega
  · intro days off
    refine ⟨?_, ?_, ?_⟩
    · simp only [firefoxDayWindow, firefoxEncodeMidnight, usPerDay]
      push_cast
      ring
    · intro t hlo hhi
      simp only [firefoxDayWindow, firefoxEncodeMidnight, firefoxToCanonicalLocalUs,
        usPerDay] at *
      push_cast at *
      constructor <;> nlinarith
    · simp only [firefoxDayWindow, firefoxEncodeMidnight, firefoxToCanonicalLocalUs, usPerDay]
      push_cast
      ring

/-- C2 witnessed: day 3 of the Chromium epoch with an in-window timestamp, and
day 1 of the Firefox epoch at UTC offset +3600 s with its window start. -/
theorem timestamp_codec_day_window_witness :
    ((chromeToCanonical 259200000005).1 = 3
      ∧ chromeEncodeMidnight 3 ≤ 259200000005
      ∧ 259200000005 < chromeEncodeMidnight 3 + usPerDay)
    ∧ ((1 : Int) * (usPerDay : Int) ≤ firefoxToCanonicalLocalUs 82800000000 3600
      ∧ firefoxToCanonicalLocalUs 82800000000 3600
          < (1 : Int) * (usPerDay : Int) + (usPerDay : Int)) :=
  ⟨(timestamp_codec_day_window.1 3).2.1 259200000005 (by decide) (by decide),
   ((timestamp_codec_day_window.2 1 3600).2.1 82800000000 (by decide) (by decide))⟩

end WorkLog
